import Mathlib

/-
  Verification of the ai-assistant scheduling app.

  The repository ships the React/Electron frontend (src/frontend/src/App.js,
  src/frontend/src/components/FreeVoiceAssistant.jsx with ChatLayout,
  src/frontend/electron/main.js).  Those files are embedded directly below.
  The temporal/scheduling engine (overlap detection, bulk insertion,
  recurrence expansion, reminder due semantics) lives in the backend, which is
  not part of the shipped sources; those parts are modelled from the spec
  (sections 4.3, 4.4, 4.6) and are marked as such in their doc comments.

  Machine integers are modelled as Nat/Int; JavaScript strings as Lean
  String/List Char (the inputs of interest are ASCII).
-/

/-! ## JavaScript string primitives (ASCII fragment) -/

/-- ASCII whitespace recognised by the JS `\s` class and `String.trim` on the
inputs of interest. -/
def isWS (c : Char) : Bool := c = ' ' || c = '\t' || c = '\n' || c = '\r'

/-- JS `toLowerCase` on ASCII characters. -/
def toLowerChar (c : Char) : Char :=
  if 'A' ≤ c ∧ c ≤ 'Z' then Char.ofNat (c.toNat + 32) else c

/-- JS `String.prototype.toLowerCase` (ASCII fragment). -/
def jsLower (l : List Char) : List Char := l.map toLowerChar

/-- JS `String.prototype.trim` (ASCII fragment). -/
def jsTrim (l : List Char) : List Char :=
  ((l.dropWhile isWS).reverse.dropWhile isWS).reverse

/-- JS `\w` character class: `[A-Za-z0-9_]`. -/
def isWordChar (c : Char) : Bool := c.isAlpha || c.isDigit || c = '_'

/-- JS `String.prototype.includes(w)` / an unanchored regex alternative:
`w` occurs as a contiguous substring of `s`. -/
def containsSub (w s : List Char) : Bool :=
  (List.range (s.length + 1)).any fun i => (s.drop i).take w.length == w

/-- An occurrence of `w` in `s` with a regex `\b` word boundary on both sides
(all keywords in the dispatchers start and end with word characters, so each
boundary just requires the neighbouring character, if any, to be a non-word
character). -/
def containsWord (w s : List Char) : Bool :=
  (List.range (s.length + 1)).any fun i =>
    ((s.drop i).take w.length == w)
    && (i == 0 || !isWordChar (s.getD (i - 1) ' '))
    && (i + w.length == s.length || !isWordChar (s.getD (i + w.length) ' '))

/-- The `set\s+up` alternative of the create-like regex in `App.js`:
`"set"`, then one or more whitespace characters, then `"up"`. -/
def containsSetWsUp (s : List Char) : Bool :=
  (List.range (s.length + 1)).any fun i =>
    ((s.drop i).take 3 == "set".toList)
    && !(((s.drop i).drop 3).takeWhile isWS).isEmpty
    && ((((s.drop i).drop 3).dropWhile isWS).take 2 == "up".toList)

/-! ## `timeToMinutes` (src/frontend/src/App.js lines 43-55)

The source matches the trimmed, lowercased input against
`^(\d{1,2})(?::(\d{2}))?(?::(\d{2}))?\s*(am|pm)?$` and converts the captured
groups to minutes since midnight.  The matcher below mirrors the regex with
its backtracking order: two-digit hour first, each optional group tried
before being skipped, `\s*` greedy, `(am|pm)?` then end of input. -/

inductive AmPm where
  | am
  | pm
deriving DecidableEq

/-- Capture groups of the time regex: hour, optional minutes, optional
seconds, optional meridiem. -/
structure TimeMatch where
  hh : Nat
  mm : Option Nat
  ss : Option Nat
  ap : Option AmPm
deriving DecidableEq

/-- Numeric value of a decimal digit character. -/
def digitVal (c : Char) : Nat := c.toNat - '0'.toNat

/-- Tail `\s*(am|pm)?$` of the time regex. -/
def matchTail4 (hh : Nat) (mm ss : Option Nat) (l : List Char) : Option TimeMatch :=
  let r := l.dropWhile isWS
  if r = ['a', 'm'] then some ⟨hh, mm, ss, some .am⟩
  else if r = ['p', 'm'] then some ⟨hh, mm, ss, some .pm⟩
  else if r = [] then some ⟨hh, mm, ss, none⟩
  else none

/-- A literal `:` followed by exactly two digits. -/
def matchColon2 (l : List Char) : Option (Nat × List Char) :=
  match l with
  | ':' :: a :: b :: rest =>
      if a.isDigit && b.isDigit then some (digitVal a * 10 + digitVal b, rest) else none
  | _ => none

/-- Tail `(?::(\d{2}))?\s*(am|pm)?$` (the seconds group). -/
def matchTail3 (hh : Nat) (mm : Option Nat) (l : List Char) : Option TimeMatch :=
  (match matchColon2 l with
   | some (ss, rest) => matchTail4 hh mm (some ss) rest
   | none => none) <|> matchTail4 hh mm none l

/-- Tail `(?::(\d{2}))?(?::(\d{2}))?\s*(am|pm)?$` (the minutes group). -/
def matchTail2 (hh : Nat) (l : List Char) : Option TimeMatch :=
  (match matchColon2 l with
   | some (mm, rest) => matchTail3 hh (some mm) rest
   | none => none) <|> matchTail3 hh none l

/-- The whole anchored regex `^(\d{1,2})...$`: the hour group is greedy, so a
two-digit hour is tried first and the matcher backtracks to one digit. -/
def matchTime (l : List Char) : Option TimeMatch :=
  match l with
  | a :: b :: rest =>
      (if a.isDigit && b.isDigit then matchTail2 (digitVal a * 10 + digitVal b) rest else none)
      <|> (if a.isDigit then matchTail2 (digitVal a) (b :: rest) else none)
  | [a] => if a.isDigit then matchTail2 (digitVal a) [] else none
  | [] => none

/-- `timeToMinutes` from `App.js`: falsy input gives `null`; otherwise the
trimmed lowercased input is matched; no match gives `null`; else
`pm` (hour ≠ 12) adds 12 hours, `12 am` becomes hour 0, and the result is
`Math.floor((hh*3600 + mm*60 + ss) / 60)`. -/
def timeToMinutes (t : String) : Option Nat :=
  if t = "" then none
  else
    match matchTime (jsLower (jsTrim t.toList)) with
    | none => none
    | some g =>
        let hh0 := g.hh
        let mm := g.mm.getD 0
        let ss := g.ss.getD 0
        let hh :=
          if g.ap = some .pm ∧ hh0 ≠ 12 then hh0 + 12
          else if g.ap = some .am ∧ hh0 = 12 then 0
          else hh0
        some ((hh * 3600 + mm * 60 + ss) / 60)

/-- Renders `h:mm pm` (two-digit minutes), the 12-hour single-time shape. -/
def twoDigits (n : Nat) : String :=
  String.mk [Char.ofNat ('0'.toNat + n / 10), Char.ofNat ('0'.toNat + n % 10)]

/-- The string `h:mm pm`. -/
def renderHMpm (h mm : Nat) : String := toString h ++ ":" ++ twoDigits mm ++ " pm"

/-! ## `durationFromAppt` (src/frontend/src/App.js lines 57-63) -/

/-- The appointment fields read by `durationFromAppt`; a `none` field models a
missing (undefined) property.  `end` is a Lean keyword, hence `end_`. -/
structure Appointment where
  start_time : Option String
  start : Option String
  end_time : Option String
  end_ : Option String
deriving DecidableEq

/-- JS `a || b` on possibly-missing string values: a missing or empty string
is falsy. -/
def jsOr (x y : Option String) : Option String :=
  match x with
  | some s => if s = "" then y else some s
  | none => y

/-- `timeToMinutes` applied to a possibly-missing value: `timeToMinutes`
returns `null` on falsy input. -/
def timeToMinutesOpt (t : Option String) : Option Nat :=
  match t with
  | none => none
  | some s => timeToMinutes s

/-- `durationFromAppt` from `App.js`: parse `start_time || start` and
`end_time || end`; if either is `null` return the safe default 60, else
return `end - start` when positive and 60 otherwise. -/
def durationFromAppt (a : Appointment) : Int :=
  match timeToMinutesOpt (jsOr a.start_time a.start),
        timeToMinutesOpt (jsOr a.end_time a.end_) with
  | some s, some e => if (0 : Int) < (e : Int) - (s : Int) then (e : Int) - (s : Int) else 60
  | _, _ => 60

/-! ## The two chat dispatchers

`handleQueryPayload` embeds `handleQuery` in `src/frontend/src/App.js`
(lines 391-446): keyword gates decide whether the text is eligible for a
structured shortcut, `\bthis week\b` is tried before `\btoday\b`, and
otherwise the raw query is sent.  `sendQueryPayload` embeds
`ChatLayout.sendQuery` in `src/frontend/src/components/FreeVoiceAssistant.jsx`
(lines 248-288): a bare `includes('today')` is tried before
`includes('this week')` with no keyword gates. -/

/-- The JSON body posted to `/query`: either `{query: text}` or
`{action: name}`. -/
inductive Payload where
  | rawQuery (q : String)
  | action (a : String)
deriving DecidableEq

/-- `/(schedule|create|add|book|hold|block|reserve|set up|set-up|set\s+up)/i`. -/
def isCreateLike (l : List Char) : Bool :=
  (["schedule", "create", "add", "book", "hold", "block", "reserve",
    "set up", "set-up"].map String.toList).any (fun w => containsSub w l)
  || containsSetWsUp l

/-- `/(move|reschedule|change|edit|update|shift|rename|retitle)/i`. -/
def isModifyLike (l : List Char) : Bool :=
  (["move", "reschedule", "change", "edit", "update", "shift", "rename",
    "retitle"].map String.toList).any fun w => containsSub w l

/-- `/(cancel|delete|remove|clear)/i`. -/
def isCancelLike (l : List Char) : Bool :=
  (["cancel", "delete", "remove", "clear"].map String.toList).any fun w =>
    containsSub w l

/-- `/(free|available|availability|open|slot|free time)/i`. -/
def wantsFree (l : List Char) : Bool :=
  (["free", "available", "availability", "open", "slot", "free time"].map
    String.toList).any fun w => containsSub w l

/-- `/\bbetween\b/i`. -/
def mentionsBetween (l : List Char) : Bool := containsWord "between".toList l

/-- Payload chosen by `handleQuery` in `App.js` for a given input; `none`
models the early return on an empty trimmed query. -/
def handleQueryPayload (input : String) : Option Payload :=
  if String.mk (jsTrim input.toList) = "" then none
  else if !isCreateLike (jsLower (jsTrim input.toList))
      && !isModifyLike (jsLower (jsTrim input.toList))
      && !isCancelLike (jsLower (jsTrim input.toList))
      && !wantsFree (jsLower (jsTrim input.toList))
      && !mentionsBetween (jsLower (jsTrim input.toList)) then
    if containsWord "this week".toList (jsLower (jsTrim input.toList)) then
      some (.action "this_week")
    else if containsWord "today".toList (jsLower (jsTrim input.toList)) then
      some (.action "today")
    else some (.rawQuery (String.mk (jsTrim input.toList)))
  else some (.rawQuery (String.mk (jsTrim input.toList)))

/-- Payload chosen by `ChatLayout.sendQuery` in `FreeVoiceAssistant.jsx`:
`lower.includes('today')` first, then `lower.includes('this week')`, else the
raw query. -/
def sendQueryPayload (input : String) : Option Payload :=
  if String.mk (jsTrim input.toList) = "" then none
  else if containsSub "today".toList (jsLower (jsTrim input.toList)) then
    some (.action "today")
  else if containsSub "this week".toList (jsLower (jsTrim input.toList)) then
    some (.action "this_week")
  else some (.rawQuery (String.mk (jsTrim input.toList)))

/-! ## Reminder polling timers (App.js lines 334-349, electron/main.js) -/

/-- A timer registration made at startup: a call issued immediately, or a
`setInterval` with a fixed period in milliseconds. -/
inductive TimerTask where
  | immediate (act : String)
  | every (ms : Nat) (act : String)
deriving DecidableEq

/-- `POLL_MS` in `electron/main.js`. -/
def POLL_MS : Nat := 60000

/-- The renderer reminders effect: `poll()` then `setInterval(poll, 60000)`,
each poll posting `{action: 'reminders_due'}`. -/
def rendererReminderTasks : List TimerTask :=
  [.immediate "reminders_due", .every 60000 "reminders_due"]

/-- The Electron main process on `whenReady`:
`setInterval(pollDueReminders, POLL_MS)` then `pollDueReminders()`, each poll
posting `{action: 'reminders_due'}`. -/
def mainReminderTasks : List TimerTask :=
  [.every POLL_MS "reminders_due", .immediate "reminders_due"]

/-- Whether an action fires at `t` milliseconds after startup under a list of
timer registrations: an immediate call fires at `t = 0`, a `setInterval` of
period `ms` fires at each positive multiple of `ms`. -/
def firesAt (ts : List TimerTask) (act : String) (t : Nat) : Bool :=
  ts.any fun task =>
    match task with
    | .immediate a => a == act && t == 0
    | .every ms a => a == act && decide (0 < t) && t % ms == 0

/-- Whether a registration is a periodic task. -/
def isPeriodic : TimerTask → Bool
  | .every _ _ => true
  | .immediate _ => false

/-! ## Electron native-notification dedup (electron/main.js lines 16-17, 93-95)

`showNativeReminder(r)` returns immediately when `r` is falsy or `r.id` is
already in the module-level `notified` set, and otherwise adds `r.id` and
shows the notification.  Nothing in `main.js` ever removes from `notified`. -/

/-- The reminder fields relevant to the dedup guard. -/
structure NativeReminder where
  id : Nat
deriving DecidableEq

/-- One call to `showNativeReminder`: given the current `notified` set and the
(possibly null) reminder argument, returns the new set and whether a native
notification was shown. -/
def showNativeReminder (notified : List Nat) (r : Option NativeReminder) :
    List Nat × Bool :=
  match r with
  | none => (notified, false)
  | some r => if notified.contains r.id then (notified, false) else (r.id :: notified, true)

/-- Number of native notifications shown for reminder id `i` over a sequence
of `showNativeReminder` calls started from state `st`. -/
def notifyCount (st : List Nat) (calls : List (Option NativeReminder)) (i : Nat) : Nat :=
  match calls with
  | [] => 0
  | c :: cs =>
      let step := showNativeReminder st c
      (if step.2 && (c.map NativeReminder.id == some i) then 1 else 0)
        + notifyCount step.1 cs i

/-! ## Reminder snooze and due-poll state

Modelled from the spec: the reminder record and the backend operations
`dueReminders(now)` and snooze are not in the shipped sources; section 4.6
specifies `dueReminders(now)` as all active, non-delivered reminders with
trigger time ≤ now, and snooze as resetting the trigger to now + offset while
clearing any delivered flag.  Trigger times are in minutes.  The frontend
side (every snooze control sending offset 10) is embedded from `App.js`. -/

/-- Modelled from the spec: a reminder record (§3, §4.6) — trigger time in
minutes, active flag, delivered flag. -/
structure Reminder where
  id : Nat
  trigger : Nat
  active : Bool
  delivered : Bool
deriving DecidableEq

/-- Modelled from the spec: snooze resets the trigger time to now + offset
and clears any delivered flag (§4.6). -/
def snoozeReminder (now offset : Nat) (r : Reminder) : Reminder :=
  { r with trigger := now + offset, delivered := false }

/-- Modelled from the spec: `dueReminders(now)` returns all active,
non-delivered reminders whose trigger time ≤ now (§4.6). -/
def dueReminders (now : Nat) (rs : List Reminder) : List Reminder :=
  rs.filter fun r => r.active && !r.delivered && decide (r.trigger ≤ now)

/-- Modelled from the spec: snooze addressed by reminder id. -/
def snoozeById (rs : List Reminder) (id now offset : Nat) : List Reminder :=
  rs.map fun r => if r.id = id then snoozeReminder now offset r else r

/-- The body `{action: 'reminder_snooze', id, minutes}` posted by
`snoozeReminder` in `App.js` (lines 674-689). -/
structure SnoozeRequest where
  action : String
  id : Nat
  minutes : Nat
deriving DecidableEq

/-- `snoozeReminder(r, minutes)` in `App.js` posts this body. -/
def snoozeRequest (id minutes : Nat) : SnoozeRequest := ⟨"reminder_snooze", id, minutes⟩

/-- The toast button `onClick={() => snoozeReminder(t.reminder, 10)}`. -/
def toastSnoozeRequest (id : Nat) : SnoozeRequest := snoozeRequest id 10

/-- The reminder-list button `onClick={() => snoozeReminder(rr, 10)}`. -/
def listSnoozeRequest (id : Nat) : SnoozeRequest := snoozeRequest id 10

/-! ## Conflict detection and bulk insertion

Modelled from the spec: the backend conflict detector is not in the shipped
sources.  Section 4.4 specifies half-open overlap on same-date segments after
cross-midnight segmentation (§4.1 splits a range with end ≤ start into
`[start, 24:00)` on day D and `[00:00, end)` on day D+1), and `bulkInsert`
as insertion in ascending chronological order, skipping conflicting
occurrences and continuing. -/

/-- Modelled from the spec: a TimeInterval value
(date, start-minute-of-day, end-minute-of-day) (§3). -/
structure TimeInterval where
  date : Nat
  startMin : Nat
  endMin : Nat
deriving DecidableEq

/-- Modelled from the spec: half-open overlap of two single-day segments —
same date, `a.start < b.end` and `b.start < a.end` (§4.4). -/
def segOverlaps (a b : TimeInterval) : Bool :=
  a.date == b.date && decide (a.startMin < b.endMin) && decide (b.startMin < a.endMin)

/-- Modelled from the spec: cross-midnight segmentation — an interval whose
end ≤ start is split into `[start, 1440)` on its date and `[0, end)` on the
next date; any other interval is a single segment (§4.1). -/
def segmentsOf (i : TimeInterval) : List TimeInterval :=
  if i.endMin ≤ i.startMin then
    [⟨i.date, i.startMin, 1440⟩, ⟨i.date + 1, 0, i.endMin⟩]
  else [i]

/-- Modelled from the spec: `overlaps(a, b)` — some segment of `a` overlaps
some segment of `b` (§4.4). -/
def overlaps (a b : TimeInterval) : Bool :=
  (segmentsOf a).any fun sa => (segmentsOf b).any fun sb => segOverlaps sa sb

/-- Modelled from the spec: a concrete occurrence (date, start, end, title)
produced by expansion (§3). -/
structure Occurrence where
  date : Nat
  startMin : Nat
  endMin : Nat
  title : String
deriving DecidableEq

/-- The TimeInterval of an occurrence. -/
def occInterval (o : Occurrence) : TimeInterval := ⟨o.date, o.startMin, o.endMin⟩

/-- Modelled from the spec: `findConflicts(candidate, existing)` — every
existing item whose interval overlaps the candidate's (§4.4). -/
def findConflicts (cand : Occurrence) (existing : List Occurrence) : List Occurrence :=
  existing.filter fun e => overlaps (occInterval cand) (occInterval e)

/-- Chronological sort key of an occurrence. -/
def chronoKey (o : Occurrence) : Nat := o.date * 1440 + o.startMin

/-- Insertion step of the chronological sort. -/
def insertChrono (o : Occurrence) : List Occurrence → List Occurrence
  | [] => [o]
  | x :: xs => if chronoKey o ≤ chronoKey x then o :: x :: xs else x :: insertChrono o xs

/-- Ascending chronological order of the batch (§4.4). -/
def sortChrono (l : List Occurrence) : List Occurrence := l.foldr insertChrono []

/-- Modelled from the spec: the bulk-insert loop — each occurrence is checked
against the existing store and the previously accepted occurrences; a
conflict-free occurrence is accepted, a conflicting one is recorded as
skipped with its conflicts, and processing continues (§4.4). -/
def bulkInsertGo (existing : List Occurrence) :
    List Occurrence → List (Occurrence × List Occurrence) → List Occurrence →
    List Occurrence × List (Occurrence × List Occurrence)
  | accepted, skipped, [] => (accepted, skipped)
  | accepted, skipped, o :: rest =>
      let cs := findConflicts o (existing ++ accepted)
      if cs.isEmpty then bulkInsertGo existing (accepted ++ [o]) skipped rest
      else bulkInsertGo existing accepted (skipped ++ [(o, cs)]) rest

/-- Modelled from the spec: `bulkInsert(occurrences)` returns
`(created, skipped)` (§4.4). -/
def bulkInsert (existing occs : List Occurrence) :
    List Occurrence × List (Occurrence × List Occurrence) :=
  bulkInsertGo existing [] [] (sortChrono occs)

/-! ## Recurrence expansion, count mode

Modelled from the spec: the recurrence expander is not in the shipped
sources.  Section 4.3: start from the first date on/after the earliest
applicable date whose weekday is in the weekday set, step forward by
7 × interval days per cycle, emit one occurrence per matching weekday within
each cycle, and in count mode stop after exactly N occurrences total. -/

/-- Modelled from the spec: a RecurrenceSpec in count-termination mode —
non-empty weekday set, start time, positive duration, interval multiplier
K ≥ 1, occurrence count, title (§3). -/
structure RecurrenceSpec where
  weekdays : List (Fin 7)
  startMin : Nat
  durationMin : Nat
  interval : Nat
  count : Nat
  title : String

/-- Modelled from the spec: the first date on/after `start` whose weekday is
in the weekday set (§4.3).  Dates are day numbers; the weekday of a date is
its residue mod 7. -/
def firstMatchingFrom (start : Nat) (wds : List (Fin 7)) : Nat :=
  start + (((List.range 7).find? fun i => wds.any fun w => (start + i) % 7 == w.val).getD 0)

/-- Modelled from the spec: the occurrences of one weekly cycle anchored at
`anchor` — one occurrence per matching weekday in the 7-day window (§4.3). -/
def cycleOccurrences (spec : RecurrenceSpec) (anchor : Nat) : List Occurrence :=
  (List.range 7).filterMap fun d =>
    let date := anchor + d
    if spec.weekdays.any (fun w => date % 7 == w.val) then
      some ⟨date, spec.startMin, spec.startMin + spec.durationMin, spec.title⟩
    else none

/-- Modelled from the spec: `n` cycles, stepping 7 × interval days between
cycle anchors (§4.3). -/
def expandCycles (spec : RecurrenceSpec) : Nat → Nat → List Occurrence
  | 0, _ => []
  | n + 1, anchor =>
      cycleOccurrences spec anchor ++ expandCycles spec n (anchor + 7 * spec.interval)

/-- Modelled from the spec: count-mode expansion — emit cycle by cycle and
stop after exactly `count` occurrences total (§4.3).  Generating `count`
cycles always suffices since a non-empty weekday set yields at least one
occurrence per cycle. -/
def expandCount (spec : RecurrenceSpec) (start : Nat) : List Occurrence :=
  (expandCycles spec spec.count (firstMatchingFrom start spec.weekdays)).take spec.count

/-! ## Theorems -/

/-- Overlap of single-day segments is symmetric. -/
theorem segOverlaps_symm (a b : TimeInterval) : segOverlaps a b = segOverlaps b a := by
  simp only [segOverlaps]
  rw [Bool.eq_iff_iff]
  simp only [Bool.and_eq_true, beq_iff_eq, decide_eq_true_eq]
  constructor
  · rintro ⟨⟨h1, h2⟩, h3⟩
    exact ⟨⟨h1.symm, h3⟩, h2⟩
  · rintro ⟨⟨h1, h2⟩, h3⟩
    exact ⟨⟨h1.symm, h3⟩, h2⟩

/-- C1: overlap is symmetric — `overlaps(a,b) = overlaps(b,a)` for every pair
of TimeIntervals, with half-open semantics on same-date segments after
cross-midnight segmentation. -/
theorem overlaps_symm : ∀ a b : TimeInterval, overlaps a b = overlaps b a := by
  intro a b
  simp only [overlaps]
  rw [Bool.eq_iff_iff]
  simp only [List.any_eq_true]
  constructor
  · rintro ⟨sa, ha, sb, hb, h⟩
    exact ⟨sb, hb, sa, ha, by rw [segOverlaps_symm]; exact h⟩
  · rintro ⟨sb, hb, sa, ha, h⟩
    exact ⟨sa, ha, sb, hb, by rw [segOverlaps_symm]; exact h⟩

/-- Inserting into the chronological sort adds one element. -/
theorem insertChrono_length (o : Occurrence) (l : List Occurrence) :
    (insertChrono o l).length = l.length + 1 := by
  induction l with
  | nil => rfl
  | cons x xs ih =>
      simp only [insertChrono]
      split
      · simp
      · simp [ih]

/-- The chronological sort preserves length. -/
theorem sortChrono_length (l : List Occurrence) : (sortChrono l).length = l.length := by
  induction l with
  | nil => rfl
  | cons x xs ih =>
      show (insertChrono x (sortChrono xs)).length = (x :: xs).length
      rw [insertChrono_length, ih, List.length_cons]

/-- The bulk-insert loop: every processed occurrence lands in exactly one of
the two output lists. -/
theorem bulkInsertGo_length (existing : List Occurrence) :
    ∀ (l accepted : List Occurrence) (skipped : List (Occurrence × List Occurrence)),
      (bulkInsertGo existing accepted skipped l).1.length
        + (bulkInsertGo existing accepted skipped l).2.length
        = accepted.length + skipped.length + l.length := by
  intro l
  induction l with
  | nil =>
      intro accepted skipped
      simp [bulkInsertGo]
  | cons o rest ih =>
      intro accepted skipped
      simp only [bulkInsertGo]
      split
      · rw [ih]
        simp
        omega
      · rw [ih]
        simp
        omega

/-- C2: bulk insert is non-destructive on conflicts —
`len(created) + len(skipped) = len(occurrences)` for every input batch; a
conflicting occurrence is recorded as skipped and processing continues. -/
theorem bulkInsert_partitions : ∀ existing occs : List Occurrence,
    (bulkInsert existing occs).1.length + (bulkInsert existing occs).2.length
      = occs.length := by
  intro existing occs
  unfold bulkInsert
  rw [bulkInsertGo_length]
  simp [sortChrono_length]

/-- A non-empty weekday set yields at least one occurrence per weekly cycle:
the 7-day window starting at the anchor covers every weekday residue. -/
theorem cycleOccurrences_length_pos (spec : RecurrenceSpec) (anchor : Nat)
    (h : spec.weekdays ≠ []) : 0 < (cycleOccurrences spec anchor).length := by
  rcases hw : spec.weekdays with _ | ⟨w, ws⟩
  · exact absurd hw h
  · have hwlt : w.val < 7 := w.isLt
    have hd : (anchor + (w.val + 7 - anchor % 7) % 7) % 7 = w.val := by omega
    have hdlt : (w.val + 7 - anchor % 7) % 7 < 7 := Nat.mod_lt _ (by omega)
    have hmem : (⟨anchor + (w.val + 7 - anchor % 7) % 7, spec.startMin,
        spec.startMin + spec.durationMin, spec.title⟩ : Occurrence)
          ∈ cycleOccurrences spec anchor := by
      simp only [cycleOccurrences, List.mem_filterMap]
      refine ⟨(w.val + 7 - anchor % 7) % 7, List.mem_range.mpr hdlt, ?_⟩
      rw [if_pos]
      rw [hw]
      simp only [List.any_cons, Bool.or_eq_true, beq_iff_eq]
      exact Or.inl hd
    exact List.length_pos_of_mem hmem

/-- With a non-empty weekday set, `n` cycles contain at least `n`
occurrences. -/
theorem expandCycles_length_ge (spec : RecurrenceSpec) (h : spec.weekdays ≠ []) :
    ∀ n anchor, n ≤ (expandCycles spec n anchor).length := by
  intro n
  induction n with
  | zero =>
      intro anchor
      simp [expandCycles]
  | succ k ih =>
      intro anchor
      simp only [expandCycles, List.length_append]
      have h1 := cycleOccurrences_length_pos spec anchor h
      have h2 := ih (anchor + 7 * spec.interval)
      omega

/-- C3: count-mode recurrence expansion of a valid spec (count ≥ 1, non-empty
weekday set, positive duration) yields exactly `count` occurrences in total,
regardless of the interval multiplier. -/
theorem expandCount_yields_count (spec : RecurrenceSpec) (start : Nat)
    (hw : spec.weekdays ≠ []) (hc : 1 ≤ spec.count) (hd : 0 < spec.durationMin)
    (hk : 1 ≤ spec.interval) :
    (expandCount spec start).length = spec.count := by
  unfold expandCount
  rw [List.length_take]
  have := expandCycles_length_ge spec hw spec.count (firstMatchingFrom start spec.weekdays)
  omega

/-- Witness for C3: a Thursday/Monday spec with count 4 and interval 2
expands to exactly 4 occurrences. -/
theorem expandCount_yields_count_witness :
    ([(3 : Fin 7), (0 : Fin 7)] ≠ ([] : List (Fin 7))) ∧
    (expandCount ⟨[(3 : Fin 7), (0 : Fin 7)], 1140, 60, 2, 4, "Dance"⟩ 0).length = 4 :=
  ⟨by decide,
   expandCount_yields_count ⟨[(3 : Fin 7), (0 : Fin 7)], 1140, 60, 2, 4, "Dance"⟩ 0
     (by decide) (by decide) (by decide) (by decide)⟩

/-- C4: intent dispatch on cancel/delete keywords.  `handleQuery` in `App.js`
keeps the raw query for any text with a cancel/delete keyword, but
`ChatLayout.sendQuery` — despite its comment "structured shortcuts same as
App.js" — rewrites "cancel today" into the generic retrieve shortcut
`{action: 'today'}`, so the two dispatchers diverge. -/
theorem cancel_dispatch_divergence :
    handleQueryPayload "cancel today" = some (.rawQuery "cancel today") ∧
    sendQueryPayload "cancel today" = some (.action "today") := by
  constructor
  · decide
  · decide

/-- C5: most-specific-first tie-breaking between `this_week` and `today`.
On "today this week" `handleQuery` in `App.js` picks the more specific
`this_week`, but `ChatLayout.sendQuery` checks `today` first and picks
`today`, so the dispatchers are not identical. -/
theorem today_this_week_dispatch_divergence :
    handleQueryPayload "today this week" = some (.action "this_week") ∧
    sendQueryPayload "today this week" = some (.action "today") := by
  constructor
  · decide
  · decide

/-- Supporting fact for C4: `handleQuery` in `App.js` does send the raw query
for every non-empty input whose lowercased trimmed text contains a
cancel/delete keyword. -/
theorem handleQueryPayload_cancel_sends_raw (s : String)
    (hne : jsTrim s.toList ≠ [])
    (hc : isCancelLike (jsLower (jsTrim s.toList)) = true) :
    handleQueryPayload s = some (.rawQuery (String.mk (jsTrim s.toList))) := by
  have hne2 : String.mk (jsTrim s.toList) ≠ "" := by
    intro h
    apply hne
    have h2 : (String.mk (jsTrim s.toList)).data = ("" : String).data := by rw [h]
    simpa using h2
  unfold handleQueryPayload
  rw [if_neg hne2, hc]
  simp

/-- Supporting fact for C5: `handleQuery` in `App.js` picks `this_week`
whenever the text passes every keyword gate and contains `this week` (word
bounded), no matter whether it also contains `today`. -/
theorem handleQueryPayload_prefers_this_week (s : String)
    (hne : jsTrim s.toList ≠ [])
    (h1 : isCreateLike (jsLower (jsTrim s.toList)) = false)
    (h2 : isModifyLike (jsLower (jsTrim s.toList)) = false)
    (h3 : isCancelLike (jsLower (jsTrim s.toList)) = false)
    (h4 : wantsFree (jsLower (jsTrim s.toList)) = false)
    (h5 : mentionsBetween (jsLower (jsTrim s.toList)) = false)
    (h6 : containsWord "this week".toList (jsLower (jsTrim s.toList)) = true) :
    handleQueryPayload s = some (.action "this_week") := by
  have hne2 : String.mk (jsTrim s.toList) ≠ "" := by
    intro h
    apply hne
    have h7 : (String.mk (jsTrim s.toList)).data = ("" : String).data := by rw [h]
    simpa using h7
  unfold handleQueryPayload
  rw [if_neg hne2, h1, h2, h3, h4, h5, h6]
  simp

/-- C6: `timeToMinutes` resolves 24-hour and 12-hour single times to minutes
since midnight — "14:00" gives 840, `h:mm pm` with hour ≠ 12 gives
(h+12)*60+mm, `12:xx am` resolves to hour 0, trailing seconds are accepted
and floored away — and every string the pattern rejects gives `null` rather
than an error. -/
theorem timeToMinutes_resolves :
    timeToMinutes "14:00" = some 840 ∧
    (∀ h, h < 13 → 1 ≤ h → h ≠ 12 → ∀ mm, mm < 60 →
        timeToMinutes (renderHMpm h mm) = some ((h + 12) * 60 + mm)) ∧
    (∀ mm, mm < 60 → timeToMinutes ("12:" ++ twoDigits mm ++ " am") = some mm) ∧
    (∀ ss, ss < 60 → timeToMinutes ("14:00:" ++ twoDigits ss) = some 840) ∧
    (∀ s, matchTime (jsLower (jsTrim s.toList)) = none → timeToMinutes s = none) := by
  refine ⟨by decide, by decide, by decide, by decide, ?_⟩
  intro s h
  by_cases hs : s = ""
  · simp [timeToMinutes, hs]
  · unfold timeToMinutes
    rw [if_neg hs, h]

/-- Witness for C6: "2:30 pm" is 870 minutes, "12:15 am" is 15 minutes, and
"next week" does not match the pattern so it resolves to `null`. -/
theorem timeToMinutes_resolves_witness :
    timeToMinutes (renderHMpm 2 30) = some ((2 + 12) * 60 + 30) ∧
    timeToMinutes ("12:" ++ twoDigits 15 ++ " am") = some 15 ∧
    timeToMinutes "next week" = none :=
  ⟨timeToMinutes_resolves.2.1 2 (by decide) (by decide) (by decide) 30 (by decide),
   timeToMinutes_resolves.2.2.1 15 (by decide),
   timeToMinutes_resolves.2.2.2.2 "next week" (by decide)⟩

/-- C7: the due-poll schedule.  Both the renderer and the Electron main
process register exactly one periodic task for the `reminders_due` poll, and
both fire it once immediately at startup and then at every multiple of
60000 ms. -/
theorem reminders_due_poll_schedule :
    rendererReminderTasks.countP isPeriodic = 1 ∧
    mainReminderTasks.countP isPeriodic = 1 ∧
    (∀ t, firesAt rendererReminderTasks "reminders_due" t
        = firesAt mainReminderTasks "reminders_due" t) ∧
    (∀ t, firesAt rendererReminderTasks "reminders_due" t
        = (t == 0 || (decide (0 < t) && t % 60000 == 0))) := by
  refine ⟨by decide, by decide, ?_, ?_⟩
  · intro t
    simp only [firesAt, rendererReminderTasks, mainReminderTasks, POLL_MS,
      List.any_cons, List.any_nil, beq_self_eq_true, Bool.true_and, Bool.or_false]
    exact Bool.or_comm _ _
  · intro t
    simp only [firesAt, rendererReminderTasks, List.any_cons, List.any_nil,
      beq_self_eq_true, Bool.true_and, Bool.or_false]

/-- C8: snooze takes a reminder id and a minute offset, resets the trigger to
now + offset and clears the delivered flag, so a `dueReminders(now)` poll run
immediately afterwards never contains the snoozed reminder; and every snooze
control in the frontend posts `reminder_snooze` with offset 10. -/
theorem snooze_resets_trigger :
    (∀ now offset : Nat, ∀ r : Reminder,
        (snoozeReminder now offset r).trigger = now + offset ∧
        (snoozeReminder now offset r).delivered = false) ∧
    (∀ (rs : List Reminder) (id now : Nat),
        (dueReminders now (snoozeById rs id now 10)).all
          (fun r => !(r.id == id)) = true) ∧
    (∀ id : Nat, toastSnoozeRequest id = ⟨"reminder_snooze", id, 10⟩ ∧
        listSnoozeRequest id = ⟨"reminder_snooze", id, 10⟩) := by
  refine ⟨fun now offset r => ⟨rfl, rfl⟩, ?_, fun id => ⟨rfl, rfl⟩⟩
  intro rs id now
  rw [List.all_eq_true]
  intro r hr
  simp only [dueReminders, List.mem_filter] at hr
  obtain ⟨hmem, hdue⟩ := hr
  simp only [snoozeById, List.mem_map] at hmem
  obtain ⟨r0, _, hmap⟩ := hmem
  by_cases hid : r0.id = id
  · rw [if_pos hid] at hmap
    rw [← hmap] at hdue
    simp [snoozeReminder] at hdue
  · rw [if_neg hid] at hmap
    rw [← hmap]
    simpa using hid

/-- Each notification count is bounded by whether the id is already in the
`notified` set. -/
theorem notifyCount_le (i : Nat) :
    ∀ (calls : List (Option NativeReminder)) (st : List Nat),
      notifyCount st calls i ≤ if st.contains i then 0 else 1 := by
  intro calls
  induction calls with
  | nil =>
      intro st
      simp [notifyCount]
  | cons c cs ih =>
      intro st
      cases c with
      | none =>
          simp only [notifyCount, showNativeReminder, Option.map_none]
          simpa using ih st
      | some r =>
          simp only [notifyCount, showNativeReminder, Option.map_some]
          by_cases hc : st.contains r.id = true
          · simp only [hc, if_true]
            simpa using ih st
          · rw [Bool.not_eq_true] at hc
            simp only [hc, Bool.false_eq_true, if_false]
            by_cases hi : r.id = i
            · subst hi
              have h1 := ih (r.id :: st)
              have h2 : (r.id :: st).contains r.id = true := by
                simp [List.contains_cons]
              rw [h2] at h1
              simp at h1
              rw [hc]
              simp [h1]
            · have h1 := ih (r.id :: st)
              have h2 : (r.id :: st).contains i = st.contains i := by
                simp [List.contains_cons, hi, Ne.symm hi]
              rw [h2] at h1
              have h4 : (Option.map NativeReminder.id (some r) == some i) = false := by
                simpa using hi
              simp only [Bool.true_and, h4, Bool.false_eq_true, if_false]
              omega

/-- C9: the Electron main process delivers at most one native notification
per reminder id — `showNativeReminder` is a no-op on an id already in the
`notified` set, the set only grows, and any call sequence from the initial
empty set shows at most one notification for a given id. -/
theorem native_notification_once :
    (∀ (st : List Nat) (r : NativeReminder), st.contains r.id = true →
        showNativeReminder st (some r) = (st, false)) ∧
    (∀ (st : List Nat) (c : Option NativeReminder) (x : Nat),
        x ∈ st → x ∈ (showNativeReminder st c).1) ∧
    (∀ (calls : List (Option NativeReminder)) (i : Nat),
        notifyCount [] calls i ≤ 1) := by
  refine ⟨?_, ?_, ?_⟩
  · intro st r h
    simp only [showNativeReminder, h]
    rfl
  · intro st c x hx
    cases c with
    | none => simpa [showNativeReminder] using hx
    | some r =>
        simp only [showNativeReminder]
        split
        · exact hx
        · exact List.mem_cons_of_mem _ hx
  · intro calls i
    have h := notifyCount_le i calls []
    simpa using h

/-- Witness for C9: with id 5 already notified, a second call for id 5 is a
no-op. -/
theorem native_notification_once_witness :
    (([5] : List Nat).contains 5 = true) ∧
    showNativeReminder [5] (some ⟨5⟩) = ([5], false) :=
  ⟨by decide, native_notification_once.1 [5] ⟨5⟩ (by decide)⟩

/-- C10: `durationFromAppt` always returns a strictly positive number of
minutes: the end-minus-start difference when both times parse and the
difference is positive, and the safe default 60 otherwise; being a total
function it never throws. -/
theorem durationFromAppt_spec :
    (∀ a : Appointment, 0 < durationFromAppt a) ∧
    (∀ (a : Appointment) (s e : Nat),
        timeToMinutesOpt (jsOr a.start_time a.start) = some s →
        timeToMinutesOpt (jsOr a.end_time a.end_) = some e →
        durationFromAppt a
          = if (0 : Int) < (e : Int) - (s : Int) then (e : Int) - (s : Int) else 60) ∧
    (∀ a : Appointment,
        (timeToMinutesOpt (jsOr a.start_time a.start) = none ∨
         timeToMinutesOpt (jsOr a.end_time a.end_) = none) →
        durationFromAppt a = 60) := by
  refine ⟨?_, ?_, ?_⟩
  · intro a
    unfold durationFromAppt
    cases h1 : timeToMinutesOpt (jsOr a.start_time a.start) with
    | none => simp
    | some s =>
        cases h2 : timeToMinutesOpt (jsOr a.end_time a.end_) with
        | none => simp
        | some e =>
            simp only []
            split
            · omega
            · omega
  · intro a s e h1 h2
    unfold durationFromAppt
    rw [h1, h2]
  · intro a h
    rcases h with h | h
    · cases h2 : timeToMinutesOpt (jsOr a.end_time a.end_) with
      | none => unfold durationFromAppt; rw [h, h2]
      | some e => unfold durationFromAppt; rw [h, h2]
    · cases h1 : timeToMinutesOpt (jsOr a.start_time a.start) with
      | none => unfold durationFromAppt; rw [h1, h]
      | some s => unfold durationFromAppt; rw [h1, h]

/-- Witness for C10: a 14:00-15:30 appointment has duration 90; an
unparseable start time falls back to the 60-minute default. -/
theorem durationFromAppt_spec_witness :
    durationFromAppt ⟨some "14:00", none, some "15:30", none⟩ = 90 ∧
    durationFromAppt ⟨some "later", none, some "15:30", none⟩ = 60 := by
  constructor
  · have h := durationFromAppt_spec.2.1 ⟨some "14:00", none, some "15:30", none⟩
      840 930 (by decide) (by decide)
    norm_num at h
    exact h
  · exact durationFromAppt_spec.2.2 ⟨some "later", none, some "15:30", none⟩
      (Or.inl (by decide))
